import Mathlib

/-!
Verification of the SCRAM authentication client (scram.ts) of this repository.

The source is a callback-driven SCRAM-SHA-1 / SCRAM-SHA-256 client.  We embed it
shallowly: bytes are lists of naturals, JavaScript strings are Lean strings,
JavaScript undefined is Option.none, a JavaScript number produced by parseInt is
an Option Int (none standing for NaN), the Node crypto primitives are an
abstract structure of functions, and the two network round trips driven through
callbacks are turned into explicit reply parameters.  Each engine run returns
the list of commands it submitted to the connection together with its outcome.
-/

set_option maxHeartbeats 1000000

namespace Scram

/-- The two hash families supported by the client (type CryptoMethod in the source). -/
inductive CryptoMethod where
  | sha1
  | sha256
  deriving DecidableEq, Repr

/-- Abstract cryptographic primitives of the Node crypto library, which is external to
the repository.  Every HMAC call site of the source passes a byte buffer as key and a
string as data; H takes a byte buffer; pbkdf2Sync takes the password string, the salt
buffer, the iteration count (a JavaScript number, possibly NaN, hence Option Int), and
the requested key length. -/
structure CryptoPrims where
  hash : CryptoMethod → List Nat → List Nat
  hmac : CryptoMethod → List Nat → String → List Nat
  pbkdf2 : CryptoMethod → String → List Nat → Option Int → Nat → List Nat
  md5hex : String → String

/-- Static configuration of one ScramSHA provider: the crypto primitives and the
optional saslprep module (none models a missing saslprep dependency). -/
structure ScramConfig where
  prims : CryptoPrims
  saslprep : Option (String → String)

/-- MongoCredentials as used by the scram module: username, password and the
authentication source database. -/
structure Credentials where
  username : String
  password : String
  source : String

/-- The per-attempt AuthContext: credentials plus the nonce, which is only present
after prepare has generated it (the source checks authContext.nonce for truthiness;
a Buffer is always truthy, so presence is what matters). -/
structure AuthContext where
  credentials : Credentials
  nonce : Option (List Nat)

/-- Modelled from the spec: the server-first response document and the bson Binary
codec live outside src.  The spec states that the payload carried in the response is
the raw server-first attribute string, which is exactly what Binary.value() returns
(a byte string, not a Buffer); conversationId is the server-assigned id. -/
structure ServerFirst where
  payload : String
  conversationId : Int

/-- Modelled from the spec: a server reply delivered by the connection, which is
outside src.  transportErr models the err argument of the command callback;
serverErr models a result document carrying a dollar-err or errmsg field (checked by
resolveError in the source); payload is the raw payload string obtained through
Binary.value(); done mirrors the optional done field (none when absent). -/
structure SaslReply where
  transportErr : Bool
  serverErr : Bool
  payload : String
  conversationId : Int
  done : Option Bool

/-- A command submitted to the connection.  The source also sends the constant fields
saslStart: 1, autoAuthorize: 1, options: skipEmptyExchange true on the first command
and saslContinue: 1 on the follow-ups; only the varying fields are recorded here. -/
inductive Command where
  | saslStart (ns : String) (mechanism : String) (payload : String)
  | saslContinue (ns : String) (conversationId : Int) (payload : String)
  deriving DecidableEq, Repr

/-- The error kinds an attempt can surface.  All of them are MongoError values in the
source; the message strings that distinguish the two missing-nonce sites are kept.
jsTypeError models a thrown TypeError from accessing a method of undefined. -/
inductive ScramError where
  | noNonce (msg : String)
  | invalidInput (msg : String)
  | weakIterations (iterations : Option Int)
  | invalidNonce (rnonce : String)
  | transport
  | serverError
  | serverSignatureInvalid
  | jsTypeError
  deriving DecidableEq, Repr

/-- Final outcome of a run: success (callback with no error) or an error. -/
inductive Outcome where
  | ok
  | err (e : ScramError)
  deriving DecidableEq, Repr

/-- JavaScript String.prototype.split with a one-character separator: every occurrence
splits, the result is never empty, and an empty input yields one empty group. -/
def jsSplitChar (sep : Char) : List Char → List (List Char)
  | [] => [[]]
  | c :: rest =>
      if c = sep then [] :: jsSplitChar sep rest
      else
        match jsSplitChar sep rest with
        | [] => [[c]]
        | g :: gs => (c :: g) :: gs

/-- JavaScript String.prototype.replace with a plain string pattern: only the first
occurrence of the target character is replaced (the source uses no global flag). -/
def jsReplaceCharOnce (target : Char) (repl : List Char) : List Char → List Char
  | [] => []
  | c :: cs => if c = target then repl ++ cs else c :: jsReplaceCharOnce target repl cs

/-- JavaScript Array.prototype.join: elements joined by the separator, empty array
giving the empty string. -/
def jsJoin (sep : String) : List String → String
  | [] => ""
  | x :: rest => rest.foldl (fun acc y => acc ++ sep ++ y) x

/-- JavaScript String.prototype.startsWith. -/
def jsStartsWith (s pre : String) : Bool :=
  pre.data.isPrefixOf s.data

/-- Models calling toString with an encoding argument on a JavaScript string:
String.prototype.toString ignores its argument and returns the string unchanged.
The source calls payload.value().toString with argument base64 when assembling the
authMessage; since payload.value() is a string, that call is the identity. -/
def jsStringToString (s : String) (_encoding : String) : String := s

/-- Property lookup on the object built by parsePayload: the last assignment to a key
wins, and both a missing key and a key assigned undefined read back as undefined. -/
def jsGetEntry : List (String × Option String) → String → Option (Option String)
  | [], _ => none
  | (k, v) :: rest, key =>
      match jsGetEntry rest key with
      | some r => some r
      | none => if k = key then some v else none

/-- Reading dict.key: undefined (none) when the key is absent or was assigned
undefined, otherwise the stored string. -/
def jsGet (dict : List (String × Option String)) (key : String) : Option String :=
  match jsGetEntry dict key with
  | some v => v
  | none => none

/-- Decimal value of a digit run, most significant first. -/
def digitsValue (ds : List Char) : Nat :=
  ds.foldl (fun a c => a * 10 + (c.toNat - 48)) 0

/-- Common JavaScript whitespace skipped by parseInt. -/
def jsWhitespace (c : Char) : Bool :=
  c == ' ' || c == '\t' || c == '\n' || c == '\r'

/-- JavaScript parseInt with radix 10 on a string: skip whitespace, optional sign,
then the longest leading digit run; no digits gives NaN (modelled as none). -/
def jsParseIntList (cs : List Char) : Option Int :=
  match cs.dropWhile jsWhitespace with
  | '-' :: rest =>
      let ds := rest.takeWhile Char.isDigit
      if ds.isEmpty then none else some (-(digitsValue ds : Int))
  | '+' :: rest =>
      let ds := rest.takeWhile Char.isDigit
      if ds.isEmpty then none else some (digitsValue ds : Int)
  | other =>
      let ds := other.takeWhile Char.isDigit
      if ds.isEmpty then none else some (digitsValue ds : Int)

/-- parseInt applied to a possibly-undefined value: parseInt of undefined coerces the
argument to the string undefined, which parses to NaN. -/
def jsParseInt : Option String → Option Int
  | none => none
  | some s => jsParseIntList s.data

/-- The truthiness test of the source guard: iterations is truthy (neither 0 nor NaN)
and below 4096. -/
def iterGuard : Option Int → Bool
  | none => false
  | some n => decide (n ≠ 0 ∧ n < 4096)

/-- String rendering of a JavaScript number as used in template strings and
Array.prototype.join: NaN renders as NaN. -/
def jsNumToString : Option Int → String
  | none => "NaN"
  | some n => toString n

/-- The base64 alphabet character for a 6-bit value. -/
def b64CharOf (n : Nat) : Char :=
  "ABCDEFGHIJKLMNOPQRSTUVWXYZabcdefghijklmnopqrstuvwxyz0123456789+/".data.getD n 'A'

/-- Standard base64 encoding of a byte list (Buffer.prototype.toString with base64). -/
def base64EncodeList : List Nat → List Char
  | [] => []
  | [b1] => [b64CharOf (b1 / 4), b64CharOf (b1 % 4 * 16), '=', '=']
  | [b1, b2] =>
      [b64CharOf (b1 / 4), b64CharOf (b1 % 4 * 16 + b2 / 16), b64CharOf (b2 % 16 * 4), '=']
  | b1 :: b2 :: b3 :: rest =>
      b64CharOf (b1 / 4) :: b64CharOf (b1 % 4 * 16 + b2 / 16)
        :: b64CharOf (b2 % 16 * 4 + b3 / 64) :: b64CharOf (b3 % 64) :: base64EncodeList rest

/-- base64 encoding producing a string. -/
def base64Encode (bytes : List Nat) : String := String.mk (base64EncodeList bytes)

/-- The 6-bit value of a base64 alphabet character; none for padding and foreign
characters (Node ignores them when decoding). -/
def b64ValueOf (c : Char) : Option Nat :=
  if 'A' ≤ c ∧ c ≤ 'Z' then some (c.toNat - 65)
  else if 'a' ≤ c ∧ c ≤ 'z' then some (c.toNat - 71)
  else if '0' ≤ c ∧ c ≤ '9' then some (c.toNat + 4)
  else if c = '+' then some 62
  else if c = '/' then some 63
  else none

/-- Packing a run of 6-bit values back into bytes. -/
def packSextets : List Nat → List Nat
  | s1 :: s2 :: s3 :: s4 :: rest =>
      (s1 * 4 + s2 / 16) :: (s2 % 16 * 16 + s3 / 4) :: (s3 % 4 * 64 + s4) :: packSextets rest
  | [s1, s2] => [s1 * 4 + s2 / 16]
  | [s1, s2, s3] => [s1 * 4 + s2 / 16, s2 % 16 * 16 + s3 / 4]
  | _ => []

/-- base64 decoding of a string (Buffer.from with base64). -/
def base64Decode (s : String) : List Nat := packSextets (s.data.filterMap b64ValueOf)

/-- The bytes of a string as seen by Buffer.from with utf8: for the ASCII strings
handled here the code points are the bytes. -/
def strBytes (s : String) : List Nat := s.data.map Char.toNat

/-- An argument that is either a Buffer or a string, as accepted by the xor function
of the source, which converts any non-Buffer argument with Buffer.from. -/
inductive BufOrStr where
  | buf (bytes : List Nat)
  | str (text : String)

/-- The Buffer.from conversion applied by xor to non-Buffer arguments. -/
def toBuf : BufOrStr → List Nat
  | .buf b => b
  | .str s => strBytes s

/-- Indexing a buffer in JavaScript: an out-of-range read yields undefined, which the
xor operator coerces to 0. -/
def jsByteAt (a : List Nat) (i : Nat) : Nat := a.getD i 0

/-- The loop body of the xor function of the source: byte-wise xor up to the longer
length, the shorter side read as 0 past its end. -/
def xorBytes (a b : List Nat) : List Nat :=
  (List.range (max a.length b.length)).map (fun i => jsByteAt a i ^^^ jsByteAt b i)

/-- The xor function of the source: convert non-Buffer arguments, xor byte-wise over
the maximum of the two lengths, and return the base64 rendering of the result. -/
def xor (a b : BufOrStr) : String := base64Encode (xorBytes (toBuf a) (toBuf b))

/-- The fallback comparison loop of compareDigest: or-accumulate the xor of each byte
pair. -/
def xorOrFold : List Nat → List Nat → Nat → Nat
  | a :: as, b :: bs, acc => xorOrFold as bs (acc ||| (a ^^^ b))
  | _, _, acc => acc

/-- compareDigest of the source: false on a length mismatch, otherwise the
constant-time accumulate-and-test loop (crypto.timingSafeEqual, when present, computes
the same boolean). -/
def compareDigest (lhs rhs : List Nat) : Bool :=
  if lhs.length ≠ rhs.length then false
  else xorOrFold lhs rhs 0 == 0

/-- cleanUsername of the source: replace applied without a global flag, so only the
first equals sign and the first comma are escaped, in that order. -/
def cleanUsername (username : String) : String :=
  String.mk (jsReplaceCharOnce ',' ['=', '2', 'C']
    (jsReplaceCharOnce '=' ['=', '3', 'D'] username.data))

/-- clientFirstMessageBare of the source.  The source builds a Buffer from the utf8
bytes of the pieces; joining or hashing it goes back through utf8, so at string level
it is this concatenation. -/
def clientFirstMessageBare (username nonceB64 : String) : String :=
  "n=" ++ username ++ ",r=" ++ nonceB64

/-- The SASL mechanism name for each method. -/
def mechanismName : CryptoMethod → String
  | .sha1 => "SCRAM-SHA-1"
  | .sha256 => "SCRAM-SHA-256"

/-- parsePayload of the source: split on comma, split every element on every equals
sign, store element[0] as key and element[1] as value (undefined when there is no
equals sign); later assignments overwrite earlier ones. -/
def parsePayload (payload : String) : List (String × Option String) :=
  (jsSplitChar ',' payload.data).map fun part =>
    let valueParts := jsSplitChar '=' part
    (String.mk (valueParts.headD []), (valueParts[1]?).map String.mk)

/-- passwordDigest of the source.  The typeof checks on username and password are
statically true in this typed embedding; the remaining check rejects an empty
password, and otherwise the hex MD5 of username:mongo:password is returned. -/
def passwordDigest (prims : CryptoPrims) (username password : String) :
    Except ScramError String :=
  if password.length = 0 then
    Except.error (ScramError.invalidInput "password cannot be empty")
  else
    Except.ok (prims.md5hex (username ++ ":mongo:" ++ password))

/-- The processedPassword computation of continueScramConversation: saslprep (or the
raw password when the module is missing) for SHA-256, passwordDigest for SHA-1, whose
thrown error is caught and surfaced through the callback. -/
def prepPassword (cfg : ScramConfig) (cryptoMethod : CryptoMethod)
    (username password : String) : Except ScramError String :=
  match cryptoMethod with
  | .sha256 =>
      Except.ok (match cfg.saslprep with
        | some f => f password
        | none => password)
  | .sha1 => passwordDigest cfg.prims username password

/-- The key lengths of the HI cache (hiLengthMap in the source). -/
def hiLengthMap : CryptoMethod → Nat
  | .sha256 => 32
  | .sha1 => 20

/-- The process-wide salted-password cache: the map together with its entry count. -/
structure HIState where
  cache : List (String × List Nat)
  count : Nat

/-- Property lookup in the cache object.  Keys are inserted at most once, so the first
match is the binding. -/
def cacheFind : List (String × List Nat) → String → Option (List Nat)
  | [], _ => none
  | (k, v) :: rest, key => if k = key then some v else cacheFind rest key

/-- The cache key of HI: data, base64 salt and iteration count joined by underscores.
The crypto method is not part of the key. -/
def hiKey (data : String) (salt : List Nat) (iterations : Option Int) : String :=
  jsJoin "_" [data, base64Encode salt, jsNumToString iterations]

/-- HI of the source: return the cached value when the key is present, otherwise run
PBKDF2, purge the whole cache when it already holds at least 200 entries, store and
return the fresh value. -/
def HI (prims : CryptoPrims) (data : String) (salt : List Nat) (iterations : Option Int)
    (cryptoMethod : CryptoMethod) (st : HIState) : List Nat × HIState :=
  match cacheFind st.cache (hiKey data salt iterations) with
  | some v => (v, st)
  | none =>
      let saltedData := prims.pbkdf2 cryptoMethod data salt iterations
        (hiLengthMap cryptoMethod)
      let st1 := if st.count ≥ 200 then HIState.mk [] 0 else st
      (saltedData,
       HIState.mk ((hiKey data salt iterations, saltedData) :: st1.cache) (st1.count + 1))

/-- The values derived in the middle of continueScramConversation (source lines 173
to 195): proof-free client-final prefix, salted password via HI, client and server
keys, stored key, authMessage, both signatures, and the client-final payload. -/
structure ScramDerived where
  withoutProof : String
  authMessage : String
  clientKey : List Nat
  serverKey : List Nat
  storedKey : List Nat
  clientSignature : List Nat
  serverSignature : List Nat
  clientFinal : String

/-- The derivation pipeline of continueScramConversation, verbatim from the source:
note that the authMessage middle component is payload.value().toString(base64), which
is the identity on the payload string, and that both signatures are HMACs over the
one authMessage value. -/
def scramDerived (cfg : ScramConfig) (cryptoMethod : CryptoMethod)
    (processedPassword : String) (payloadStr rnonce saltStr : String)
    (iterations : Option Int) (username : String) (nonce : List Nat)
    (cache : HIState) : ScramDerived × HIState :=
  let withoutProof := "c=biws,r=" ++ rnonce
  let hi := HI cfg.prims processedPassword (base64Decode saltStr) iterations
    cryptoMethod cache
  let saltedPassword := hi.1
  let clientKey := cfg.prims.hmac cryptoMethod saltedPassword "Client Key"
  let serverKey := cfg.prims.hmac cryptoMethod saltedPassword "Server Key"
  let storedKey := cfg.prims.hash cryptoMethod clientKey
  let authMessage := jsJoin ","
    [clientFirstMessageBare username (base64Encode nonce),
     jsStringToString payloadStr "base64", withoutProof]
  let clientSignature := cfg.prims.hmac cryptoMethod storedKey authMessage
  let clientProof := "p=" ++ xor (BufOrStr.buf clientKey) (BufOrStr.buf clientSignature)
  let clientFinal := jsJoin "," [withoutProof, clientProof]
  let serverSignature := cfg.prims.hmac cryptoMethod serverKey authMessage
  (⟨withoutProof, authMessage, clientKey, serverKey, storedKey, clientSignature,
    serverSignature, clientFinal⟩, hi.2)

/-- The callback handling the reply to the first saslContinue (source lines 202 to
226): resolveError first, then parse the payload, decode the v attribute (accessing a
missing v throws), compare it to the expected server signature with compareDigest,
and either finish or submit one empty-payload saslContinue whose reply is propagated
verbatim. -/
def scramSecondStage (db : String) (serverSignature : List Nat)
    (reply2 reply3 : SaslReply) : List Command × Outcome :=
  if reply2.transportErr then ([], Outcome.err ScramError.transport)
  else if reply2.serverErr then ([], Outcome.err ScramError.serverError)
  else
    match jsGet (parsePayload reply2.payload) "v" with
    | none => ([], Outcome.err ScramError.jsTypeError)
    | some v =>
        if !(compareDigest (base64Decode v) serverSignature) then
          ([], Outcome.err ScramError.serverSignatureInvalid)
        else if reply2.done ≠ some false then ([], Outcome.ok)
        else
          ([Command.saslContinue (db ++ ".$cmd") reply2.conversationId ""],
           if reply3.transportErr then Outcome.err ScramError.transport else Outcome.ok)

/-- continueScramConversation after the password has been prepped (source lines 155
to 226): parse the server-first payload, run the iteration-count guard (truthy and
below 4096), check only that the combined nonce does not start with the literal text
nonce (reading a missing r throws first), read the salt (a missing s makes
Buffer.from throw), derive the proof values, submit the saslContinue, and hand the
reply to the second stage. -/
def scramAfterPrep (cfg : ScramConfig) (cryptoMethod : CryptoMethod) (db : String)
    (response : ServerFirst) (username : String) (nonce : List Nat)
    (processedPassword : String) (cache : HIState) (reply2 reply3 : SaslReply) :
    List Command × Outcome :=
  let dict := parsePayload response.payload
  let iterations := jsParseInt (jsGet dict "i")
  if iterGuard iterations then ([], Outcome.err (ScramError.weakIterations iterations))
  else
    match jsGet dict "r" with
    | none => ([], Outcome.err ScramError.jsTypeError)
    | some rnonce =>
        if jsStartsWith rnonce "nonce" then
          ([], Outcome.err (ScramError.invalidNonce rnonce))
        else
          match jsGet dict "s" with
          | none => ([], Outcome.err ScramError.jsTypeError)
          | some saltStr =>
              let d := (scramDerived cfg cryptoMethod processedPassword response.payload
                rnonce saltStr iterations username nonce cache).1
              let stage2 := scramSecondStage db d.serverSignature reply2 reply3
              (Command.saslContinue (db ++ ".$cmd") response.conversationId d.clientFinal
                :: stage2.1, stage2.2)

/-- continueScramConversation of the source: fail when the nonce is absent, prep the
password (SHA-1 digest errors surface through the callback before anything is sent),
then continue with the server-first response. -/
def continueScramConversation (cfg : ScramConfig) (cryptoMethod : CryptoMethod)
    (response : ServerFirst) (authContext : AuthContext) (cache : HIState)
    (reply2 reply3 : SaslReply) : List Command × Outcome :=
  match authContext.nonce with
  | none => ([], Outcome.err (ScramError.noNonce "Unable to continue SCRAM without valid nonce"))
  | some nonce =>
      let db := authContext.credentials.source
      let username := cleanUsername authContext.credentials.username
      match prepPassword cfg cryptoMethod username authContext.credentials.password with
      | Except.error e => ([], Outcome.err e)
      | Except.ok pp =>
          scramAfterPrep cfg cryptoMethod db response username nonce pp cache reply2 reply3

/-- executeScram of the source: fail when the nonce is absent, otherwise submit the
saslStart command built by makeFirstMessage to source.$cmd, resolve errors on its
reply and continue the conversation with the reply document. -/
def executeScram (cfg : ScramConfig) (cryptoMethod : CryptoMethod)
    (authContext : AuthContext) (cache : HIState)
    (reply1 reply2 reply3 : SaslReply) : List Command × Outcome :=
  match authContext.nonce with
  | none => ([], Outcome.err (ScramError.noNonce "AuthContext must contain a valid nonce property"))
  | some nonce =>
      let db := authContext.credentials.source
      let saslStartCmd := Command.saslStart (db ++ ".$cmd") (mechanismName cryptoMethod)
        ("n,," ++ clientFirstMessageBare (cleanUsername authContext.credentials.username)
          (base64Encode nonce))
      if reply1.transportErr then ([saslStartCmd], Outcome.err ScramError.transport)
      else if reply1.serverErr then ([saslStartCmd], Outcome.err ScramError.serverError)
      else
        let rest := continueScramConversation cfg cryptoMethod
          ⟨reply1.payload, reply1.conversationId⟩ authContext cache reply2 reply3
        (saslStartCmd :: rest.1, rest.2)

/-- Trivial concrete primitives for closed evaluation runs of the engine. -/
def zeroPrims : CryptoPrims where
  hash := fun _ _ => []
  hmac := fun _ _ _ => []
  pbkdf2 := fun _ _ _ _ n => List.replicate n 0
  md5hex := fun _ => "d41d8cd9"

/-- Configuration with trivial primitives and no saslprep module. -/
def zeroCfg : ScramConfig where
  prims := zeroPrims
  saslprep := none

/-- Concrete primitives whose PBKDF2 output depends on the crypto method, and whose
MD5 collides with a chosen SHA-256 prepped password, exhibiting a shared cache key
across methods. -/
def methodPrims : CryptoPrims where
  hash := fun _ _ => []
  hmac := fun _ _ _ => []
  pbkdf2 := fun m _ _ _ n =>
    List.replicate n (match m with | .sha1 => 1 | .sha256 => 2)
  md5hex := fun _ => "x"

/-- Configuration around methodPrims with no saslprep module. -/
def methodCfg : ScramConfig where
  prims := methodPrims
  saslprep := none

theorem natOrEqZero (m n : Nat) : m ||| n = 0 ↔ m = 0 ∧ n = 0 := by
  constructor
  · intro h
    have hb : ∀ i, (m ||| n).testBit i = false := by simp [h, Nat.zero_testBit]
    constructor <;> (apply Nat.eq_of_testBit_eq; intro i; simp [Nat.zero_testBit])
    · have := hb i
      simp [Nat.testBit_or] at this
      exact this.1
    · have := hb i
      simp [Nat.testBit_or] at this
      exact this.2
  · rintro ⟨rfl, rfl⟩
    rfl

theorem xorOrFold_zero (as : List Nat) : ∀ (bs : List Nat) (acc : Nat),
    xorOrFold as bs acc = 0 ↔ acc = 0 ∧ xorOrFold as bs 0 = 0 := by
  induction as with
  | nil => intro bs acc; simp [xorOrFold]
  | cons a as ih =>
      intro bs acc
      cases bs with
      | nil => simp [xorOrFold]
      | cons b bs =>
          simp only [xorOrFold]
          rw [ih bs (acc ||| (a ^^^ b)), ih bs (0 ||| (a ^^^ b))]
          simp [natOrEqZero, and_assoc]

theorem xorOrFold_eq_iff (as : List Nat) : ∀ bs : List Nat, as.length = bs.length →
    (xorOrFold as bs 0 = 0 ↔ as = bs) := by
  induction as with
  | nil =>
      intro bs h
      cases bs with
      | nil => simp [xorOrFold]
      | cons b bs => simp at h
  | cons a as ih =>
      intro bs h
      cases bs with
      | nil => simp at h
      | cons b bs =>
          have h' : as.length = bs.length := by simpa using h
          simp only [xorOrFold, Nat.zero_or]
          rw [xorOrFold_zero as bs (a ^^^ b), ih bs h']
          simp [Nat.xor_eq_zero]

/-- C4 (confirmed): compareDigest returns false whenever the two inputs have
different lengths, and on equal-length inputs returns true exactly when the inputs
are byte-for-byte equal (hence false for any two distinct inputs of one length). -/
theorem compareDigest_spec (a b : List Nat) :
    (a.length ≠ b.length → compareDigest a b = false) ∧
    (compareDigest a b = true ↔ a = b) := by
  constructor
  · intro h
    simp [compareDigest, h]
  · by_cases h : a.length = b.length
    · simp [compareDigest, h, xorOrFold_eq_iff a b h]
    · have hne : a ≠ b := fun hh => h (by rw [hh])
      simp [compareDigest, h, hne]

/-- C4 witness: the theorem applied at two same-length distinct inputs, at a pair of
equal inputs, and at a length mismatch. -/
theorem compareDigest_spec_w :
    compareDigest [1, 2] [1] = false ∧
    compareDigest [1, 2] [1, 3] ≠ true ∧
    compareDigest [1, 2] [1, 2] = true := by
  refine ⟨(compareDigest_spec [1, 2] [1]).1 (by decide), ?_, ?_⟩
  · intro hc
    exact absurd ((compareDigest_spec [1, 2] [1, 3]).2.mp hc) (by decide)
  · exact (compareDigest_spec [1, 2] [1, 2]).2.mpr rfl

theorem getD_map_range (f : Nat → Nat) (n i : Nat) (hi : i < n) :
    ((List.range n).map f).getD i 0 = f i := by
  rw [List.getD_eq_getElem?_getD, List.getElem?_map, List.getElem?_range hi]
  rfl

theorem map_range_getD (l : List Nat) :
    (List.range l.length).map (fun i => l.getD i 0) = l := by
  induction l with
  | nil => simp
  | cons a l ih =>
      rw [List.length_cons, List.range_succ_eq_map, List.map_cons, List.map_map]
      have h2 : (List.range l.length).map ((fun i => (a :: l).getD i 0) ∘ Nat.succ)
          = (List.range l.length).map (fun i => l.getD i 0) := by
        apply List.map_congr_left
        intro i _
        simp [Function.comp, List.getD_cons_succ]
      rw [h2, ih]
      rfl

/-- C9 (corrected): the byte-level loop of xor extends to the longer input with
zero padding, and at equal lengths it is an involution; the xor function itself
returns the base64 string rendering of those bytes, not a byte sequence. -/
theorem xor_amended (a b : List Nat) (h : a.length = b.length) :
    (xorBytes a b).length = max a.length b.length ∧
    xorBytes a (xorBytes a b) = b ∧
    xor (BufOrStr.buf a) (BufOrStr.buf b) = base64Encode (xorBytes a b) := by
  refine ⟨by simp [xorBytes], ?_, rfl⟩
  have hlen : (xorBytes a b).length = b.length := by
    simp [xorBytes, h]
  set c := xorBytes a b with hc
  have hmax : max a.length c.length = b.length := by
    rw [hlen, h, Nat.max_self]
  have hck : ∀ i, i < b.length → jsByteAt c i = jsByteAt a i ^^^ jsByteAt b i := by
    intro i hi
    have hi' : i < max a.length b.length := by
      rw [h, Nat.max_self]; exact hi
    rw [hc]
    unfold xorBytes jsByteAt
    exact getD_map_range _ _ i hi'
  calc xorBytes a c
      = (List.range b.length).map (fun i => jsByteAt a i ^^^ jsByteAt c i) := by
        unfold xorBytes
        rw [hmax]
    _ = (List.range b.length).map (fun i => jsByteAt b i) := by
        apply List.map_congr_left
        intro i hi
        rw [hck i (List.mem_range.mp hi), ← Nat.xor_assoc, Nat.xor_self, Nat.zero_xor]
    _ = b := map_range_getD b

/-- C9 witness: the amended theorem applied at the equal-length inputs [1, 2] and
[3, 4]. -/
theorem xor_amended_w :
    (xorBytes [1, 2] [3, 4]).length = max (List.length [1, 2]) (List.length [3, 4]) ∧
    xorBytes [1, 2] (xorBytes [1, 2] [3, 4]) = [3, 4] ∧
    xor (BufOrStr.buf [1, 2]) (BufOrStr.buf [3, 4]) = base64Encode (xorBytes [1, 2] [3, 4]) :=
  xor_amended [1, 2] [3, 4] (by decide)

/-- C9 counterexample: xor accepts inputs of different lengths and zero-pads instead
of rejecting them, and it returns a base64 string, so composing it as in the claimed
involution feeds the string back through Buffer.from and does not recover b: with
a = [1] and b = [2] the result is the base64 text QHc9PQ== rather than the encoding
of [2]. -/
theorem xor_claim_counterexample :
    xor (BufOrStr.buf [1]) (BufOrStr.buf [2, 3]) = "AwM=" ∧
    xor (BufOrStr.buf [1]) (BufOrStr.str (xor (BufOrStr.buf [1]) (BufOrStr.buf [2])))
      = "QHc9PQ==" ∧
    ("QHc9PQ==" : String) ≠ base64Encode [2] := by
  refine ⟨by decide, by decide, by decide⟩

/-- C10 (confirmed): with no nonce on the AuthContext, both executeScram and
continueScramConversation fail immediately with a MongoError and submit no command,
leaving the connection untouched. -/
theorem missingNonce_spec (cfg : ScramConfig) (m : CryptoMethod) (ctx : AuthContext)
    (cache : HIState) (response : ServerFirst) (reply1 reply2 reply3 : SaslReply)
    (h : ctx.nonce = none) :
    executeScram cfg m ctx cache reply1 reply2 reply3
      = ([], Outcome.err (ScramError.noNonce "AuthContext must contain a valid nonce property")) ∧
    continueScramConversation cfg m response ctx cache reply2 reply3
      = ([], Outcome.err (ScramError.noNonce "Unable to continue SCRAM without valid nonce")) := by
  constructor
  · unfold executeScram
    rw [h]
  · unfold continueScramConversation
    rw [h]

/-- C10 witness: the theorem applied at a concrete nonce-free context. -/
theorem missingNonce_spec_w :
    executeScram zeroCfg CryptoMethod.sha1 ⟨⟨"u", "p", "admin"⟩, none⟩ ⟨[], 0⟩
        ⟨false, false, "", 0, none⟩ ⟨false, false, "", 0, none⟩ ⟨false, false, "", 0, none⟩
      = ([], Outcome.err (ScramError.noNonce "AuthContext must contain a valid nonce property")) ∧
    continueScramConversation zeroCfg CryptoMethod.sha1 ⟨"", 0⟩
        ⟨⟨"u", "p", "admin"⟩, none⟩ ⟨[], 0⟩
        ⟨false, false, "", 0, none⟩ ⟨false, false, "", 0, none⟩
      = ([], Outcome.err (ScramError.noNonce "Unable to continue SCRAM without valid nonce")) :=
  missingNonce_spec zeroCfg CryptoMethod.sha1 ⟨⟨"u", "p", "admin"⟩, none⟩ ⟨[], 0⟩
    ⟨"", 0⟩ ⟨false, false, "", 0, none⟩ ⟨false, false, "", 0, none⟩
    ⟨false, false, "", 0, none⟩ rfl

/-- C1 (amended): HI is a pure function of its arguments and the cache state, and on
a cache miss it returns exactly PBKDF2 of the given method, data, salt and iteration
count at the method hash length; on a hit it returns the cached value, whatever
method produced it, because the cache key omits the method. -/
theorem HI_amended (prims : CryptoPrims) (data : String) (salt : List Nat)
    (iterations : Option Int) (m : CryptoMethod) (st : HIState) :
    (cacheFind st.cache (hiKey data salt iterations) = none →
       (HI prims data salt iterations m st).1
         = prims.pbkdf2 m data salt iterations (hiLengthMap m)) ∧
    (∀ v, cacheFind st.cache (hiKey data salt iterations) = some v →
       (HI prims data salt iterations m st).1 = v) := by
  constructor
  · intro h
    unfold HI
    rw [h]
  · intro v h
    unfold HI
    rw [h]

/-- C1 witness: the amended theorem applied on an empty cache. -/
theorem HI_amended_w :
    (HI zeroPrims "p" [0] (some 4096) CryptoMethod.sha1 ⟨[], 0⟩).1
      = zeroPrims.pbkdf2 CryptoMethod.sha1 "p" [0] (some 4096) (hiLengthMap CryptoMethod.sha1) :=
  (HI_amended zeroPrims "p" [0] (some 4096) CryptoMethod.sha1 ⟨[], 0⟩).1 rfl

/-- C1 counterexample: with primitives whose MD5-hex digest of the SHA-1 credentials
equals the SHA-256 prepped password x, both methods prep to the same string, and two
successive HI calls at iteration count 4096 then share one cache key; the second
call, made with method sha256, returns the 20-byte value cached by the sha1 call
instead of the 32-byte SHA-256 PBKDF2 output, so the result does not depend on the
method across calls sharing the cache key. -/
theorem HI_claim_counterexample :
    prepPassword methodCfg CryptoMethod.sha1 "u" "p" = Except.ok "x" ∧
    prepPassword methodCfg CryptoMethod.sha256 "u" "x" = Except.ok "x" ∧
    (HI methodPrims "x" [0] (some 4096) CryptoMethod.sha256
        (HI methodPrims "x" [0] (some 4096) CryptoMethod.sha1 ⟨[], 0⟩).2).1
      = List.replicate 20 1 ∧
    methodPrims.pbkdf2 CryptoMethod.sha256 "x" [0] (some 4096)
        (hiLengthMap CryptoMethod.sha256)
      = List.replicate 32 2 ∧
    (List.replicate 20 1 : List Nat) ≠ List.replicate 32 2 := by
  refine ⟨rfl, rfl, by decide, by decide, by decide⟩

/-- C2 (confirmed): the authMessage of an attempt is the client-first-bare text, the
raw server-first payload and the proof-free client-final prefix c=biws,r= followed by
the combined nonce, joined by literal commas; the toString call with a base64
argument on the payload string is the identity, and both the client signature and
the server signature are HMACs over that one authMessage value. -/
theorem authMessage_spec (cfg : ScramConfig) (m : CryptoMethod)
    (pp payloadStr rnonce saltStr : String) (iterations : Option Int)
    (username : String) (nonce : List Nat) (cache : HIState) :
    let d := (scramDerived cfg m pp payloadStr rnonce saltStr iterations
      username nonce cache).1
    d.authMessage
        = clientFirstMessageBare username (base64Encode nonce) ++ "," ++ payloadStr
          ++ "," ++ ("c=biws,r=" ++ rnonce) ∧
    d.clientSignature = cfg.prims.hmac m d.storedKey d.authMessage ∧
    d.serverSignature = cfg.prims.hmac m d.serverKey d.authMessage :=
  ⟨rfl, rfl, rfl⟩

/-- C3 (confirmed): once the first saslContinue reply arrives without error, the
decoded v attribute is compared with compareDigest against the expected server
signature before anything else is sent; a mismatch fails with the invalid-signature
error and submits nothing further, a match with done equal to false submits exactly
one empty-payload saslContinue, and a match with done true or absent submits nothing
further and succeeds. -/
theorem serverSignature_check_spec (db : String) (sig : List Nat)
    (reply2 reply3 : SaslReply) (v : String)
    (h1 : reply2.transportErr = false) (h2 : reply2.serverErr = false)
    (h3 : jsGet (parsePayload reply2.payload) "v" = some v) :
    (compareDigest (base64Decode v) sig = false →
       scramSecondStage db sig reply2 reply3
         = ([], Outcome.err ScramError.serverSignatureInvalid)) ∧
    (compareDigest (base64Decode v) sig = true → reply2.done ≠ some false →
       scramSecondStage db sig reply2 reply3 = ([], Outcome.ok)) ∧
    (compareDigest (base64Decode v) sig = true → reply2.done = some false →
       (scramSecondStage db sig reply2 reply3).1
         = [Command.saslContinue (db ++ ".$cmd") reply2.conversationId ""]) := by
  refine ⟨?_, ?_, ?_⟩
  · intro hc
    simp [scramSecondStage, h1, h2, h3, hc]
  · intro hc hd
    simp [scramSecondStage, h1, h2, h3, hc, hd]
  · intro hc hd
    simp [scramSecondStage, h1, h2, h3, hc, hd]

/-- C3 witness: the theorem applied at a concrete error-free reply whose v attribute
decodes to the expected (empty) signature, with done true. -/
theorem serverSignature_check_spec_w :
    scramSecondStage "admin" [] ⟨false, false, "v=", 9, some true⟩
        ⟨false, false, "", 0, none⟩
      = ([], Outcome.ok) :=
  (serverSignature_check_spec "admin" [] ⟨false, false, "v=", 9, some true⟩
      ⟨false, false, "", 0, none⟩ "" rfl rfl (by decide)).2.1 (by decide) (by decide)

/-- C5 (amended): the only nonce validation performed on the server-first message is
that the combined nonce must not start with the literal text nonce; when it does, and
the iteration guard has passed, the attempt fails with the invalid-nonce error before
any further message is sent.  The claimed check that the combined nonce extends the
client nonce is not performed (see the counterexample). -/
theorem invalidNonce_amended (cfg : ScramConfig) (m : CryptoMethod) (db : String)
    (response : ServerFirst) (username : String) (nonce : List Nat) (pp : String)
    (cache : HIState) (reply2 reply3 : SaslReply) (rnonce : String)
    (hg : iterGuard (jsParseInt (jsGet (parsePayload response.payload) "i")) = false)
    (hr : jsGet (parsePayload response.payload) "r" = some rnonce)
    (hs : jsStartsWith rnonce "nonce" = true) :
    scramAfterPrep cfg m db response username nonce pp cache reply2 reply3
      = ([], Outcome.err (ScramError.invalidNonce rnonce)) := by
  simp [scramAfterPrep, hg, hr, hs]

/-- C5 witness: the amended theorem applied at a server-first payload whose combined
nonce is the text nonceXYZ. -/
theorem invalidNonce_amended_w :
    scramAfterPrep zeroCfg CryptoMethod.sha256 "admin" ⟨"r=nonceXYZ,s=AA==,i=4096", 1⟩
        "u" [0] "p" ⟨[], 0⟩ ⟨false, false, "v=", 7, some true⟩ ⟨false, false, "", 0, none⟩
      = ([], Outcome.err (ScramError.invalidNonce "nonceXYZ")) :=
  invalidNonce_amended zeroCfg CryptoMethod.sha256 "admin"
    ⟨"r=nonceXYZ,s=AA==,i=4096", 1⟩ "u" [0] "p" ⟨[], 0⟩
    ⟨false, false, "v=", 7, some true⟩ ⟨false, false, "", 0, none⟩ "nonceXYZ"
    (by decide) (by decide) (by decide)

/-- C5 counterexample: a run in which the combined nonce zzz does not start with the
base64 client nonce AA== (and does not start with the text nonce): the engine does
not fail with an invalid-nonce error; it submits the saslContinue and succeeds. -/
theorem clientNoncePrefix_not_checked :
    continueScramConversation zeroCfg CryptoMethod.sha256 ⟨"r=zzz,s=AA==,i=4096", 7⟩
        ⟨⟨"u", "p", "admin"⟩, some [0]⟩ ⟨[], 0⟩
        ⟨false, false, "v=", 7, some true⟩ ⟨false, false, "", 0, none⟩
      = ([Command.saslContinue "admin.$cmd" 7 "c=biws,r=zzz,p="], Outcome.ok) ∧
    jsStartsWith "zzz" (base64Encode [0]) = false := by
  refine ⟨by decide, by decide⟩

theorem scramSecondStage_no_weak (db : String) (sig : List Nat)
    (reply2 reply3 : SaslReply) (it : Option Int) :
    (scramSecondStage db sig reply2 reply3).2
      ≠ Outcome.err (ScramError.weakIterations it) := by
  unfold scramSecondStage
  by_cases h1 : reply2.transportErr
  · simp [h1]
  · by_cases h2 : reply2.serverErr
    · simp [h1, h2]
    · cases hv : jsGet (parsePayload reply2.payload) "v" with
      | none => simp [h1, h2, hv]
      | some v =>
          by_cases hc : compareDigest (base64Decode v) sig
          · by_cases hd : reply2.done = some false
            · by_cases h3 : reply3.transportErr <;> simp [h1, h2, hv, hc, hd, h3]
            · simp [h1, h2, hv, hc, hd]
          · simp [h1, h2, hv, hc]

/-- C6 (amended): the iteration-count guard fails the attempt with the
weak-iterations error exactly when parseInt of the i attribute yields a truthy number
below 4096; an i of 0 or a non-numeric i is falsy and slips past the guard, so the
attempt proceeds instead of failing (see the counterexample), while any nonzero
parsed count below 4096, such as 4095, is rejected and 4096 proceeds. -/
theorem weakIterations_amended (cfg : ScramConfig) (m : CryptoMethod) (db : String)
    (response : ServerFirst) (username : String) (nonce : List Nat) (pp : String)
    (cache : HIState) (reply2 reply3 : SaslReply) :
    (∀ n : Int, jsParseInt (jsGet (parsePayload response.payload) "i") = some n →
       n ≠ 0 → n < 4096 →
       scramAfterPrep cfg m db response username nonce pp cache reply2 reply3
         = ([], Outcome.err (ScramError.weakIterations (some n)))) ∧
    (iterGuard (jsParseInt (jsGet (parsePayload response.payload) "i")) = false →
       ∀ it, (scramAfterPrep cfg m db response username nonce pp cache reply2 reply3).2
         ≠ Outcome.err (ScramError.weakIterations it)) := by
  constructor
  · intro n hp h0 hlt
    have hg : iterGuard (some n) = true := by
      simp [iterGuard, h0, hlt]
    simp [scramAfterPrep, hp, hg]
  · intro hg it
    cases hr : jsGet (parsePayload response.payload) "r" with
    | none => simp [scramAfterPrep, hg, hr]
    | some rnonce =>
        by_cases hs : jsStartsWith rnonce "nonce"
        · simp [scramAfterPrep, hg, hr, hs]
        · cases hsalt : jsGet (parsePayload response.payload) "s" with
          | none => simp [scramAfterPrep, hg, hr, hs, hsalt]
          | some saltStr =>
              simp only [scramAfterPrep, hg, hr, hs, hsalt, Bool.false_eq_true,
                if_false]
              exact scramSecondStage_no_weak db _ reply2 reply3 it

/-- C6 witness: the rejecting half of the amended theorem applied at the boundary
count 4095. -/
theorem weakIterations_amended_w :
    scramAfterPrep zeroCfg CryptoMethod.sha256 "admin" ⟨"r=abc,s=AA==,i=4095", 1⟩
        "u" [0] "p" ⟨[], 0⟩ ⟨false, false, "v=", 7, some true⟩ ⟨false, false, "", 0, none⟩
      = ([], Outcome.err (ScramError.weakIterations (some 4095))) :=
  (weakIterations_amended zeroCfg CryptoMethod.sha256 "admin" ⟨"r=abc,s=AA==,i=4095", 1⟩
      "u" [0] "p" ⟨[], 0⟩ ⟨false, false, "v=", 7, some true⟩
      ⟨false, false, "", 0, none⟩).1 4095 (by decide) (by decide) (by decide)

/-- C6 counterexample: a server-first message with i equal to 0, far below 4096, is
not rejected with the weak-iterations error: the guard treats 0 as falsy, and the
engine proceeds to derive keys and submit the saslContinue. -/
theorem weakIterations_zero_counterexample :
    continueScramConversation zeroCfg CryptoMethod.sha256 ⟨"r=abc,s=AA==,i=0", 7⟩
        ⟨⟨"u", "p", "admin"⟩, some [0]⟩ ⟨[], 0⟩
        ⟨false, false, "v=", 7, some true⟩ ⟨false, false, "", 0, none⟩
      = ([Command.saslContinue "admin.$cmd" 7 "c=biws,r=abc,p="], Outcome.ok) := by
  decide

theorem jsSplitChar_ne_nil (sep : Char) (s : List Char) : jsSplitChar sep s ≠ [] := by
  cases s with
  | nil => simp [jsSplitChar]
  | cons c rest =>
      simp only [jsSplitChar]
      by_cases hc : c = sep
      · simp [hc]
      · simp only [hc, if_false]
        cases jsSplitChar sep rest <;> simp

theorem jsSplitChar_not_mem (sep : Char) (s : List Char) (h : sep ∉ s) :
    jsSplitChar sep s = [s] := by
  induction s with
  | nil => rfl
  | cons c rest ih =>
      obtain ⟨h1, h2⟩ : sep ≠ c ∧ sep ∉ rest := by
        simpa [List.mem_cons] using h
      have hc : ¬(c = sep) := fun e => h1 e.symm
      simp [jsSplitChar, hc, ih h2]

theorem jsSplitChar_append (sep : Char) (x y : List Char) :
    jsSplitChar sep (x ++ sep :: y) = jsSplitChar sep x ++ jsSplitChar sep y := by
  induction x with
  | nil => simp [jsSplitChar]
  | cons c x ih =>
      by_cases hc : c = sep
      · subst hc
        simp [jsSplitChar, ih]
      · obtain ⟨g, gs, hg⟩ : ∃ g gs, jsSplitChar sep x = g :: gs := by
          cases hh : jsSplitChar sep x with
          | nil => exact absurd hh (jsSplitChar_ne_nil sep x)
          | cons g gs => exact ⟨g, gs, rfl⟩
        simp [jsSplitChar, hc, ih, hg]

theorem jsSplitChar_headD (sep : Char) (s : List Char) :
    (jsSplitChar sep s).headD [] = s.takeWhile (fun c => c != sep) := by
  induction s with
  | nil => rfl
  | cons c rest ih =>
      by_cases hc : c = sep
      · subst hc
        simp [jsSplitChar, List.takeWhile_cons]
      · cases hh : jsSplitChar sep rest with
        | nil => exact absurd hh (jsSplitChar_ne_nil sep rest)
        | cons g gs =>
            have ihg : g = rest.takeWhile (fun x => x != sep) := by
              have hinst := ih
              rw [hh] at hinst
              simpa using hinst
            simp [jsSplitChar, hc, hh, List.takeWhile_cons, bne_iff_ne, ihg]

/-- C7 (amended): parsePayload splits the payload on commas and each element on
every equals sign; the stored value is the text strictly between the first and the
second equals sign, so content after a second equals sign, such as base64 padding,
is dropped rather than preserved; when the same key occurs twice the last occurrence
wins.  Here the payload holds key k twice, and the lookup returns the second value
v2 truncated at its first equals sign. -/
theorem parsePayload_amended (k v1 v2 : List Char)
    (hk1 : '=' ∉ k) (hk2 : ',' ∉ k) (hv1 : '=' ∉ v1) (hv1c : ',' ∉ v1)
    (hv2c : ',' ∉ v2) :
    jsGet (parsePayload (String.mk (k ++ '=' :: v1 ++ ',' :: (k ++ '=' :: v2))))
        (String.mk k)
      = some (String.mk (v2.takeWhile (fun c => c != '='))) := by
  have hx : (',' : Char) ∉ k ++ '=' :: v1 := by
    intro hm
    rcases List.mem_append.mp hm with h | h
    · exact hk2 h
    · rcases List.mem_cons.mp h with h | h
      · exact absurd h (by decide)
      · exact hv1c h
  have hy : (',' : Char) ∉ k ++ '=' :: v2 := by
    intro hm
    rcases List.mem_append.mp hm with h | h
    · exact hk2 h
    · rcases List.mem_cons.mp h with h | h
      · exact absurd h (by decide)
      · exact hv2c h
  have hstep : k ++ '=' :: v1 ++ ',' :: (k ++ '=' :: v2)
      = (k ++ '=' :: v1) ++ ',' :: (k ++ '=' :: v2) := by
    simp
  have hsplit : jsSplitChar ',' (k ++ '=' :: v1 ++ ',' :: (k ++ '=' :: v2))
      = [k ++ '=' :: v1, k ++ '=' :: v2] := by
    rw [hstep, jsSplitChar_append, jsSplitChar_not_mem ',' _ hx,
      jsSplitChar_not_mem ',' _ hy]
    rfl
  have e1 : jsSplitChar '=' (k ++ '=' :: v1) = k :: jsSplitChar '=' v1 := by
    rw [jsSplitChar_append, jsSplitChar_not_mem '=' k hk1]
    rfl
  have e2 : jsSplitChar '=' (k ++ '=' :: v2) = k :: jsSplitChar '=' v2 := by
    rw [jsSplitChar_append, jsSplitChar_not_mem '=' k hk1]
    rfl
  obtain ⟨g, gs, hg⟩ : ∃ g gs, jsSplitChar '=' v2 = g :: gs := by
    cases hh : jsSplitChar '=' v2 with
    | nil => exact absurd hh (jsSplitChar_ne_nil '=' v2)
    | cons g gs => exact ⟨g, gs, rfl⟩
  have hgv : g = v2.takeWhile (fun c => c != '=') := by
    have hinst := jsSplitChar_headD '=' v2
    rw [hg] at hinst
    simpa using hinst
  unfold parsePayload
  rw [show (String.mk (k ++ '=' :: v1 ++ ',' :: (k ++ '=' :: v2))).data
      = k ++ '=' :: v1 ++ ',' :: (k ++ '=' :: v2) from rfl]
  rw [hsplit]
  simp only [List.map_cons, List.map_nil]
  rw [e1, e2, jsSplitChar_not_mem '=' v1 hv1, hg]
  simp [jsGet, jsGetEntry, hgv]

/-- C7 witness: the amended theorem applied at the payload s=a,s=b== with key s;
the value read back is b, the text between the first and second equals sign of the
last occurrence. -/
theorem parsePayload_amended_w :
    jsGet (parsePayload (String.mk
        (['s'] ++ '=' :: ['a'] ++ ',' :: (['s'] ++ '=' :: ['b', '=', '=']))))
        (String.mk ['s'])
      = some (String.mk (['b', '=', '='].takeWhile (fun c => c != '='))) :=
  parsePayload_amended ['s'] ['a'] ['b', '=', '='] (by decide) (by decide)
    (by decide) (by decide) (by decide)

/-- C7 counterexample: the payload s=ab== parses to the value ab, not ab==; the
base64 padding after the second equals sign is lost, contradicting the claim that
only the first equals sign separates and the value is preserved in full. -/
theorem parsePayload_counterexample :
    jsGet (parsePayload "s=ab==") "s" = some "ab" ∧ ("ab" : String) ≠ "ab==" := by
  refine ⟨by decide, by decide⟩

/-- C8 (amended): an empty password with SHA-1 fails the attempt with the
empty-password error, but the failure is raised inside continueScramConversation,
so in the full dance the saslStart command has already been submitted and answered
when the error surfaces (exactly one command is sent); only in the speculative path,
which starts at continueScramConversation, is the failure raised before any command
reaches the connection. -/
theorem emptyPassword_amended (cfg : ScramConfig) (ctx : AuthContext)
    (nonce : List Nat) (cache : HIState) (reply1 reply2 reply3 : SaslReply)
    (hpw : ctx.credentials.password = "")
    (hn : ctx.nonce = some nonce)
    (h1 : reply1.transportErr = false) (h2 : reply1.serverErr = false) :
    executeScram cfg CryptoMethod.sha1 ctx cache reply1 reply2 reply3
      = ([Command.saslStart (ctx.credentials.source ++ ".$cmd") "SCRAM-SHA-1"
            ("n,," ++ clientFirstMessageBare (cleanUsername ctx.credentials.username)
              (base64Encode nonce))],
         Outcome.err (ScramError.invalidInput "password cannot be empty")) ∧
    (∀ response, continueScramConversation cfg CryptoMethod.sha1 response ctx cache
        reply2 reply3
      = ([], Outcome.err (ScramError.invalidInput "password cannot be empty"))) := by
  have hprep : prepPassword cfg CryptoMethod.sha1
      (cleanUsername ctx.credentials.username) ctx.credentials.password
      = Except.error (ScramError.invalidInput "password cannot be empty") := by
    rw [hpw]
    rfl
  constructor
  · simp [executeScram, continueScramConversation, hn, h1, h2, hprep, mechanismName]
  · intro response
    simp [continueScramConversation, hn, hprep]

/-- C8 witness: the amended theorem applied at concrete inputs, speculative path. -/
theorem emptyPassword_amended_w :
    continueScramConversation zeroCfg CryptoMethod.sha1 ⟨"r=abc,s=AA==,i=4096", 5⟩
        ⟨⟨"u", "", "admin"⟩, some [0]⟩ ⟨[], 0⟩
        ⟨false, false, "v=", 5, some true⟩ ⟨false, false, "", 0, none⟩
      = ([], Outcome.err (ScramError.invalidInput "password cannot be empty")) :=
  (emptyPassword_amended zeroCfg ⟨⟨"u", "", "admin"⟩, some [0]⟩ [0] ⟨[], 0⟩
      ⟨false, false, "r=abc,s=AA==,i=4096", 5, some true⟩
      ⟨false, false, "v=", 5, some true⟩ ⟨false, false, "", 0, none⟩
      rfl rfl rfl rfl).2 ⟨"r=abc,s=AA==,i=4096", 5⟩

/-- C8 counterexample: in the full dance with SHA-1 and an empty password, the
saslStart command is submitted to the connection, and only after its reply does the
attempt fail with the empty-password error, contradicting the claim that the failure
is raised before any command is submitted. -/
theorem emptyPassword_after_roundtrip :
    executeScram zeroCfg CryptoMethod.sha1 ⟨⟨"u", "", "admin"⟩, some [0]⟩ ⟨[], 0⟩
        ⟨false, false, "r=abc,s=AA==,i=4096", 5, some true⟩
        ⟨false, false, "v=", 5, some true⟩ ⟨false, false, "", 0, none⟩
      = ([Command.saslStart "admin.$cmd" "SCRAM-SHA-1" "n,,n=u,r=AA=="],
         Outcome.err (ScramError.invalidInput "password cannot be empty")) := by
  decide

end Scram
